import Mathlib

/-!
Verification development for the git-hud working-copy status/diff/summary
pipeline (`src/git.rs`, `src/summary.rs`, `src/main.rs`).

Strings are shallowly embedded as `List Char` (`Str`), file contents as
`List Nat` byte lists.  External effects (the `git` / `file` subprocesses,
the filesystem, and the HTTP summarization endpoint) are modeled as explicit
inputs recording the observed responses; the functions under verification
are direct translations of the Rust source.
-/

set_option maxRecDepth 4096

abbrev Str := List Char

/-- Splits at the first occurrence of `sep`: `some (before, after)`, or
`none` when `sep` does not occur.  Mirrors the step taken by Rust's
`str::splitn` for each produced piece. -/
def splitOnceOn (sep : Char) : Str → Option (Str × Str)
  | [] => none
  | c :: cs =>
      if c = sep then some ([], cs)
      else
        match splitOnceOn sep cs with
        | none => none
        | some (pre, post) => some (c :: pre, post)

/-- Rust `str::splitn(n, sep)`: at most `n` pieces, the last piece keeps the
remaining separators unsplit. -/
def rustSplitn (n : Nat) (sep : Char) (s : Str) : List Str :=
  match n with
  | 0 => []
  | 1 => [s]
  | m + 2 =>
      match splitOnceOn sep s with
      | none => [s]
      | some (pre, post) => pre :: rustSplitn (m + 1) sep post

/-- Rust `str::rsplitn(n, sep)`: like `splitn` but from the right; pieces are
produced right-to-left. -/
def rustRsplitn (n : Nat) (sep : Char) (s : Str) : List Str :=
  (rustSplitn n sep s.reverse).map List.reverse

/-- Rust `str::contains(needle)` on `hay` (substring containment). -/
def strContains (hay needle : Str) : Bool :=
  hay.tails.any (fun t => needle.isPrefixOf t)

/-- `StatusCode` from `src/git.rs`. -/
inductive StatusCode where
  | Modified
  | Added
  | Deleted
  | Renamed
  | Copied
  | Unmerged
  | Untracked
  | Ignored
deriving DecidableEq, Repr

/-- `impl FromStr for StatusCode` from `src/git.rs`. -/
def status_code_from_str (s : Str) : Except Str StatusCode :=
  if s = ['M'] then .ok .Modified
  else if s = ['A'] then .ok .Added
  else if s = ['D'] then .ok .Deleted
  else if s = ['R'] then .ok .Renamed
  else if s = ['C'] then .ok .Copied
  else if s = ['U'] then .ok .Unmerged
  else if s = ['?'] then .ok .Untracked
  else if s = ['!'] then .ok .Ignored
  else .error ("Invalid status code: ".data ++ s)

/-- Models `self.repo_root_path.join(path)` followed by `std::path::absolute`
for a relative, non-escaping `path`; the OS-level absolutization of the fixed
root prefix is not observable to any claim considered here. -/
def pathJoin (root p : Str) : Str := root ++ ('/' :: p)

/-- `StatusEntry` from `src/git.rs`. -/
structure StatusEntry where
  abs_path : Str
  display_path : Str
  status : StatusCode
  staged : Bool
  original_path : Option Str
  is_binary : Bool
deriving DecidableEq, Repr

/-- Outcome of `Repository::parse_status_line`: `ok` mirrors
`Ok(Option<StatusEntry>)`, `err` mirrors `Err(anyhow!(...))`, and `panicked`
marks the two `.unwrap()` calls in the rename/copy branch (a Rust panic,
which is neither an `Ok` nor an `Err`). -/
inductive ParseOutcome where
  | ok : Option StatusEntry → ParseOutcome
  | err : Str → ParseOutcome
  | panicked : ParseOutcome
deriving DecidableEq, Repr

/-- The `Ok(Some(StatusEntry { .. }))` built at the end of the `"1" | "2"`
branch of `parse_status_line`, including the fallible
`StatusCode::from_str(&status)?`. -/
def mkOrdinaryEntry (root path : Str) (staged : Bool) (codeStr : Str) : ParseOutcome :=
  match status_code_from_str codeStr with
  | .error e => .err e
  | .ok st =>
      .ok (some { display_path := path
                  abs_path := pathJoin root path
                  status := st
                  staged := staged
                  original_path := none
                  is_binary := false })

/-- `Repository::parse_status_line` from `src/git.rs` (lines 147-263),
translated clause by clause.  `root` is the repository's
`repo_root_path`. -/
def parse_status_line (root : Str) (line : Str) : ParseOutcome :=
  if line = [] then .ok none
  else
    let parts := rustSplitn 2 ' ' line
    match parts.get? 0 with
    | none => .err "Missing entry type".data
    | some entry_type =>
      if entry_type = ['1'] ∨ entry_type = ['2'] then
        -- Regular changed entry
        match parts.get? 1 with
        | none => .err "Missing entry data".data
        | some remainder =>
          let fields := rustSplitn 8 ' ' remainder
          match fields.get? 0 with
          | none => .err "Missing XY field".data
          | some xy =>
            -- fields at indices 1..6 (sub, mH, mI, mW, hash1, hash2) are
            -- consumed and discarded by the six `fields.next()` calls
            match fields.get? 7 with
            | none => .err "Missing path".data
            | some path =>
              let staged :=
                match xy.get? 0 with
                | some c => decide (c ≠ '.')
                | none => false
              match xy.get? 1 with
              | none => .err "Invalid status code format".data
              | some code =>
                if code = '.' then
                  match xy.get? 0 with
                  | none => .panicked   -- `xy.chars().nth(0).unwrap()`
                  | some c0 => mkOrdinaryEntry root path staged [c0]
                else
                  mkOrdinaryEntry root path staged [code]
      else if entry_type = ['R'] ∨ entry_type = ['C'] then
        match parts.get? 1 with
        | none => .err "Missing rename/copy data".data
        | some remainder =>
          let rparts := rustRsplitn 2 ' ' remainder
          match rparts.get? 0 with
          | none => .panicked           -- `parts.next().unwrap()`
          | some newPath =>
            match rparts.get? 1 with
            | none => .panicked         -- `parts.next().unwrap()`
            | some original =>
              .ok (some { display_path := newPath
                          abs_path := pathJoin root newPath
                          status := if entry_type = ['R'] then .Renamed else .Copied
                          staged := true
                          original_path := some original
                          is_binary := false })
      else if entry_type = ['u'] then
        match parts.get? 1 with
        | none => .err "Missing path in unmerged entry".data
        | some path =>
          .ok (some { display_path := path
                      abs_path := pathJoin root path
                      status := .Unmerged
                      staged := false
                      original_path := none
                      is_binary := false })
      else if entry_type = ['?'] then
        match parts.get? 1 with
        | none => .err "Missing path in untracked entry".data
        | some path =>
          .ok (some { display_path := path
                      abs_path := pathJoin root path
                      status := .Untracked
                      staged := false
                      original_path := none
                      is_binary := false })
      else
        -- `"!" => Ok(None)` (ignored files) and `_ => Ok(None)`
        .ok none

/-- Continuation byte test for UTF-8 validation: `0x80 ≤ b ≤ 0xBF`. -/
def isUtf8Cont (b : Nat) : Bool := 0x80 ≤ b && b ≤ 0xBF

/-- Validity of a byte sequence as UTF-8, exactly as checked by Rust's
`String::from_utf8` (overlong forms, surrogates and out-of-range lead bytes
rejected). -/
def validUtf8 : List Nat → Bool
  | [] => true
  | b :: rest =>
      if b ≤ 0x7F then validUtf8 rest
      else
        match rest with
        | [] => false
        | b1 :: rest1 =>
            if 0xC2 ≤ b && b ≤ 0xDF then isUtf8Cont b1 && validUtf8 rest1
            else
              match rest1 with
              | [] => false
              | b2 :: rest2 =>
                  if b = 0xE0 then
                    (0xA0 ≤ b1 && b1 ≤ 0xBF) && isUtf8Cont b2 && validUtf8 rest2
                  else if (0xE1 ≤ b && b ≤ 0xEC) || b = 0xEE || b = 0xEF then
                    isUtf8Cont b1 && isUtf8Cont b2 && validUtf8 rest2
                  else if b = 0xED then
                    (0x80 ≤ b1 && b1 ≤ 0x9F) && isUtf8Cont b2 && validUtf8 rest2
                  else
                    match rest2 with
                    | [] => false
                    | b3 :: rest3 =>
                        if b = 0xF0 then
                          (0x90 ≤ b1 && b1 ≤ 0xBF) && isUtf8Cont b2 && isUtf8Cont b3 &&
                            validUtf8 rest3
                        else if 0xF1 ≤ b && b ≤ 0xF3 then
                          isUtf8Cont b1 && isUtf8Cont b2 && isUtf8Cont b3 && validUtf8 rest3
                        else if b = 0xF4 then
                          (0x80 ≤ b1 && b1 ≤ 0x8F) && isUtf8Cont b2 && isUtf8Cont b3 &&
                            validUtf8 rest3
                        else false

/-- The filesystem facts `is_file_binary` observes about one path: whether
`path.exists()`, the (lossily decoded) stdout of `file -bL --mime <path>`,
and the byte content read by `read_to_end`.  OS-level transport failures of
these observations (spawn or read errors) are not modeled. -/
structure FileObs where
  ex : Bool
  probe : Str
  bytes : List Nat
deriving DecidableEq, Repr

/-- `Repository::is_file_binary` from `src/git.rs` (lines 115-145): missing
path → `false`; probe reporting a binary charset without the empty-file
sentinel → `true`; empty content → `false`; otherwise binary iff the content
is not valid UTF-8. -/
def is_file_binary (f : FileObs) : Bool :=
  if f.ex = false then false
  else if strContains f.probe "charset=binary".data &&
          !strContains f.probe "inode/x-empty".data then true
  else if f.bytes = [] then false
  else !validUtf8 f.bytes

/-- The classification step of `Repository::get_status` (lines 94-103):
`is_file_binary` is consulted only when the entry's status is not
`Deleted`. -/
def classify_is_binary (status : StatusCode) (f : FileObs) : Bool :=
  match status with
  | .Deleted => false
  | _ => is_file_binary f

/-- Accumulator-style splitter on every occurrence of `sep` (Rust
`str::split(sep)` yields exactly these pieces). -/
def splitAllAux (sep : Char) : Str → Str → List Str
  | [], acc => [acc.reverse]
  | c :: cs, acc =>
      if c = sep then acc.reverse :: splitAllAux sep cs []
      else splitAllAux sep cs (c :: acc)

/-- Rust `str::split(sep)`: all pieces, including empty ones. -/
def splitAllOn (sep : Char) (s : Str) : List Str := splitAllAux sep s []

/-- Strips one trailing `'\r'`, as Rust `str::lines` does on each
`'\n'`-terminated line (turning a `"\r\n"` terminator into nothing). -/
def stripTrailingCR (l : Str) : Str :=
  if l.getLast? = some '\r' then l.dropLast else l

/-- Turns the pieces of a `'\n'`-split into Rust lines: every piece except
the last was terminated by `'\n'`, so it gets one trailing `'\r'` stripped;
the final piece is unterminated, so it is kept verbatim (a bare trailing
`'\r'` stays, per the `str::lines` documentation), except that a final
empty piece — the string ended with the terminator, or was empty — yields
no line at all. -/
def rustLinesPieces : List Str → List Str
  | [] => []
  | [last] => if last = [] then [] else [last]
  | piece :: next :: rest => stripTrailingCR piece :: rustLinesPieces (next :: rest)

/-- Rust `str::lines`: split at `'\n'` or `"\r\n"` line endings, terminators
excluded; a final line ending is optional and produces no extra empty line,
while a bare final `'\r'` not followed by `'\n'` is kept in the last
line. -/
def rustLines (s : Str) : List Str := rustLinesPieces (splitAllOn '\n' s)

/-- Observed result of one external subprocess invocation: `success` is
`output.status.success()`; `stdout`/`stderr` are `some` of the decoded text
when the captured bytes are valid UTF-8 and `none` otherwise (so the code's
`String::from_utf8(...)?` is modeled by matching on the option). -/
structure ProcOutput where
  success : Bool
  stdout : Option Str
  stderr : Option Str
deriving DecidableEq, Repr

/-- The external observations `Repository::get_diff` can make for one entry:
the result of `read_to_string(&entry.abs_path)` (error payload abstracted),
and the outputs of the three `git diff` invocations it may run (the
rename/copy comparison, the `--diff-filter=U` unmerged diff, and the default
modified/added diff, with `--cached` added when staged — the argument lists
themselves are not observable in the model). -/
structure DiffEnv where
  readFileRes : Except Unit Str
  renameDiff : ProcOutput
  unmergedDiff : ProcOutput
  defaultDiff : ProcOutput
deriving Repr

/-- `Repository::get_diff` from `src/git.rs` (lines 264-375), translated
branch by branch; `Except.error` carries the diagnostic message. -/
def get_diff (entry : StatusEntry) (env : DiffEnv) : Except Str (Option Str) :=
  -- Skip binary files early
  if entry.is_binary then .ok none
  else
    match entry.status with
    | .Untracked =>
        match env.readFileRes with
        | .error _ => .error "Failed to read untracked file".data
        | .ok content =>
            .ok (some ('+' :: List.intercalate "\n+".data (rustLines content)))
    | .Deleted => .ok (some "This file was deleted".data)
    | .Renamed | .Copied =>
        match entry.original_path with
        | some _ =>
            if env.renameDiff.success then
              match env.renameDiff.stdout with
              | some s => .ok (some s)
              | none => .error "Invalid UTF-8 in git diff output".data
            else .ok none
        | none => .ok none
    | .Unmerged =>
        if env.unmergedDiff.success then
          match env.unmergedDiff.stdout with
          | some s => .ok (some s)
          | none => .error "Invalid UTF-8 in git diff output".data
        else .ok none
    | _ =>
        -- For modified/added files, use git diff with appropriate flags
        if env.defaultDiff.success then
          match env.defaultDiff.stdout with
          | some s => .ok (some s)
          | none => .error "Invalid UTF-8 in git diff output".data
        else
          match env.defaultDiff.stderr with
          | some e => .error ("Failed to execute git diff: ".data ++ e)
          | none => .error "invalid utf-8 sequence in stderr".data

/-- Minimal model of `serde_json::Value`. -/
inductive Json where
  | null
  | jbool : Bool → Json
  | jnum : Int → Json
  | jstr : Str → Json
  | jarr : List Json → Json
  | jobj : List (Str × Json) → Json

/-- Key lookup in an object's field list (first match, as in a map with
unique keys). -/
def jsonLookup (key : Str) : List (Str × Json) → Json
  | [] => .null
  | (k, v) :: rest => if k = key then v else jsonLookup key rest

/-- `value[key]` for `serde_json::Value`: field of an object, `Null` for a
missing key or a non-object. -/
def jgetKey (j : Json) (key : Str) : Json :=
  match j with
  | .jobj fields => jsonLookup key fields
  | _ => .null

/-- `value[i]` for `serde_json::Value`: element of an array, `Null` when out
of bounds or not an array. -/
def jgetIdx (j : Json) (i : Nat) : Json :=
  match j with
  | .jarr xs => xs.getD i .null
  | _ => .null

/-- `Value::as_str`: `Some` exactly for JSON strings. -/
def jasStr : Json → Option Str
  | .jstr s => some s
  | _ => none

/-- Rust `char::is_whitespace` (the Unicode `White_Space` property), used by
`str::trim`. -/
def isRustWhitespace (c : Char) : Bool :=
  let n := c.toNat
  (9 ≤ n && n ≤ 13) || n = 32 || n = 0x85 || n = 0xA0 || n = 0x1680 ||
    (0x2000 ≤ n && n ≤ 0x200A) || n = 0x2028 || n = 0x2029 || n = 0x202F ||
    n = 0x205F || n = 0x3000

/-- Rust `str::trim`: drop leading and trailing whitespace. -/
def rustTrim (s : Str) : Str :=
  ((s.dropWhile isRustWhitespace).reverse.dropWhile isRustWhitespace).reverse

/-- The observed HTTP response of one summarization request: `success` is
`response.status().is_success()`, `bodyText` the `response.text()` used in
the error branch, and `bodyJson` the parsed `response.json::<Value>()`
(`none` when the body is not valid JSON). -/
structure ApiResponse where
  success : Bool
  bodyText : Str
  bodyJson : Option Json

/-- The response-handling tail of `ClaudeSummarizer::summarize` from
`src/summary.rs` (lines 84-97): non-2xx → error carrying the body text;
unparsable body → error from the `.json()` call; otherwise extract
`content[0].text` as a string (error on any other shape) and return it
trimmed. -/
def summarize_claude (resp : ApiResponse) : Except Str Str :=
  if resp.success = false then
    .error ("Claude API error: ".data ++ resp.bodyText)
  else
    match resp.bodyJson with
    | none => .error "Failed to parse response body as JSON".data
    | some j =>
        match jasStr (jgetKey (jgetIdx (jgetKey j "content".data) 0) "text".data) with
        | none => .error "Unexpected API response format".data
        | some s => .ok (rustTrim s)

/-- `FileWithSummary` from `src/main.rs`. -/
structure FileWithSummary where
  path : Str
  status : StatusCode
  staged : Bool
  original_path : Option Str
  summary : Option Str
deriving DecidableEq, Repr

/-- The per-run environment of the fan-out in `run` (`src/main.rs`): the
diff-time observations for each entry and the summarizer's response to each
diff body (`summarizer.summarize(&diff)` as a whole, an `Except` since the
futures carry `anyhow::Result`). -/
structure RunEnv where
  diffEnv : StatusEntry → DiffEnv
  summarizeRes : Str → Except Str Str

/-- The `summary` computation inside the async closure of `run`
(`src/main.rs` lines 45-51): `None` for binary entries, otherwise the diff
is resolved (`?` propagating its error) and, when present, summarized (`?`
again). -/
def entry_summary (env : RunEnv) (entry : StatusEntry) : Except Str (Option Str) :=
  if entry.is_binary then .ok none
  else
    match get_diff entry (env.diffEnv entry) with
    | .error e => .error e
    | .ok none => .ok none
    | .ok (some diff) =>
        match env.summarizeRes diff with
        | .error e => .error e
        | .ok s => .ok (some s)

/-- One branch of the fan-out: the whole async closure of `run`, producing
the `FileWithSummary` for one entry or the first error its `?` operators
propagate. -/
def summarize_entry (env : RunEnv) (entry : StatusEntry) : Except Str FileWithSummary :=
  match entry_summary env entry with
  | .error e => .error e
  | .ok summary =>
      .ok { path := entry.display_path
            status := entry.status
            staged := entry.staged
            original_path := entry.original_path
            summary := summary }

/-- Result semantics of `futures::future::try_join_all`: all values in input
order, or the error of a failing branch and no sequence at all. -/
def try_join_all : List (Except Str FileWithSummary) → Except Str (List FileWithSummary)
  | [] => .ok []
  | x :: xs =>
      match x with
      | .error e => .error e
      | .ok a =>
          match try_join_all xs with
          | .error e => .error e
          | .ok rest => .ok (a :: rest)

/-- The fan-out/join of `run` (`src/main.rs` lines 41-64): map every status
entry through its async summarization branch and join. -/
def run_summaries (env : RunEnv) (entries : List StatusEntry) :
    Except Str (List FileWithSummary) :=
  try_join_all (entries.map (summarize_entry env))

/-! ### Helper lemmas on the string splitters -/

theorem splitOnceOn_append_sep (sep : Char) (l r : Str) (h : sep ∉ l) :
    splitOnceOn sep (l ++ sep :: r) = some (l, r) := by
  induction l with
  | nil => simp [splitOnceOn]
  | cons c cs ih =>
      have hc : c ≠ sep := fun hcs => h (hcs ▸ List.mem_cons_self c cs)
      have hcs : sep ∉ cs := fun hm => h (List.mem_cons_of_mem c hm)
      simp [splitOnceOn, hc, ih hcs]

theorem rustSplitn_step (m : Nat) (sep : Char) (l r : Str) (h : sep ∉ l) :
    rustSplitn (m + 2) sep (l ++ sep :: r) = l :: rustSplitn (m + 1) sep r := by
  simp [rustSplitn, splitOnceOn_append_sep sep l r h]

theorem splitAllAux_ne_nil (sep : Char) (c acc : Str) : splitAllAux sep c acc ≠ [] := by
  induction c generalizing acc with
  | nil => simp [splitAllAux]
  | cons x xs ih =>
      by_cases hx : x = sep
      · simp [splitAllAux, hx]
      · simpa [splitAllAux, hx] using ih (x :: acc)

theorem splitAllAux_append_sep (sep : Char) (c acc : Str) :
    splitAllAux sep (c ++ [sep]) acc = splitAllAux sep c acc ++ [[]] := by
  induction c generalizing acc with
  | nil => simp [splitAllAux]
  | cons x xs ih =>
      by_cases hx : x = sep
      · simp [splitAllAux, hx, ih]
      · simpa [splitAllAux, hx] using ih (x :: acc)

theorem splitAllAux_getLast_nil_iff (sep : Char) (c acc : Str) :
    (splitAllAux sep c acc).getLast? = some [] ↔
      (c = [] ∧ acc = []) ∨ c.getLast? = some sep := by
  induction c generalizing acc with
  | nil => simp [splitAllAux]
  | cons x xs ih =>
      by_cases hx : x = sep
      · obtain ⟨y, ys, hys⟩ : ∃ y ys, splitAllAux sep xs ([] : Str) = y :: ys := by
          cases h : splitAllAux sep xs ([] : Str) with
          | nil => exact absurd h (splitAllAux_ne_nil sep xs [])
          | cons y ys => exact ⟨y, ys, rfl⟩
        rw [show splitAllAux sep (x :: xs) acc = acc.reverse :: splitAllAux sep xs [] by
              simp [splitAllAux, hx],
            hys, List.getLast?_cons_cons, ← hys, ih]
        cases xs with
        | nil => simp [hx]
        | cons z zs => simp [List.getLast?_cons_cons]
      · rw [show splitAllAux sep (x :: xs) acc = splitAllAux sep xs (x :: acc) by
              simp [splitAllAux, hx],
            ih]
        cases xs with
        | nil => simp [hx, Ne.symm hx]
        | cons z zs => simp [List.getLast?_cons_cons]

theorem validUtf8_of_ascii (bs : List Nat) (h : ∀ b ∈ bs, b ≤ 0x7F) :
    validUtf8 bs = true := by
  induction bs with
  | nil => rfl
  | cons b rest ih =>
      have hb : b ≤ 0x7F := h b (List.mem_cons_self b rest)
      have hrest : ∀ x ∈ rest, x ≤ 0x7F := fun x hx => h x (List.mem_cons_of_mem b hx)
      rw [validUtf8.eq_def]
      simp [hb, ih hrest]

/-! ### Helper lemmas on the fan-out -/

theorem summarize_entry_ok_path (env : RunEnv) (e : StatusEntry) (a : FileWithSummary)
    (h : summarize_entry env e = .ok a) : a.path = e.display_path := by
  unfold summarize_entry at h
  cases hs : entry_summary env e with
  | error msg => rw [hs] at h; cases h
  | ok s =>
      rw [hs] at h
      have := Except.ok.inj h
      rw [← this]

theorem try_join_all_error_of_mem (l : List (Except Str FileWithSummary))
    (h : ∃ x ∈ l, ∃ m, x = .error m) : ∃ m2, try_join_all l = .error m2 := by
  induction l with
  | nil => obtain ⟨x, hx, _⟩ := h; cases hx
  | cons y ys ih =>
      cases hy : y with
      | error m => exact ⟨m, by simp [try_join_all, hy]⟩
      | ok a =>
          obtain ⟨x, hx, m, hm⟩ := h
          rcases List.mem_cons.mp hx with rfl | hmem
          · rw [hy] at hm; cases hm
          · obtain ⟨m2, hm2⟩ := ih ⟨x, hmem, m, hm⟩
            exact ⟨m2, by simp [try_join_all, hy, hm2]⟩

theorem try_join_all_error_mem (l : List (Except Str FileWithSummary)) (m : Str)
    (h : try_join_all l = .error m) : Except.error m ∈ l := by
  induction l with
  | nil => cases h
  | cons y ys ih =>
      cases hy : y with
      | error m2 =>
          rw [hy] at h
          simp only [try_join_all] at h
          have := Except.error.inj h
          rw [this]
          exact List.mem_cons_self _ _
      | ok a =>
          rw [hy] at h
          simp only [try_join_all] at h
          cases hrest : try_join_all ys with
          | error m2 =>
              rw [hrest] at h
              have := Except.error.inj h
              subst this
              exact List.mem_cons_of_mem _ (ih hrest)
          | ok ws => rw [hrest] at h; cases h

theorem summarize_entry_error_of (env : RunEnv) (e : StatusEntry)
    (hbin : e.is_binary = false)
    (hcase : (∃ m, get_diff e (env.diffEnv e) = .error m) ∨
             (∃ d m, get_diff e (env.diffEnv e) = .ok (some d) ∧
                     env.summarizeRes d = .error m)) :
    ∃ m, summarize_entry env e = .error m := by
  rcases hcase with ⟨m, hm⟩ | ⟨d, m, hd, hm⟩
  · exact ⟨m, by simp [summarize_entry, entry_summary, hbin, hm]⟩
  · exact ⟨m, by simp [summarize_entry, entry_summary, hbin, hd, hm]⟩

/-- C3: over the deterministic result semantics of the concurrent join
(`try_join_all`), a successful `run` fan-out returns exactly one
`FileWithSummary` per input `StatusEntry`, in input order: the output length
equals the input length and the i-th output's `path` is the i-th input's
`display_path`. -/
theorem c3_fanout_preserves_order (env : RunEnv) (entries : List StatusEntry)
    (ys : List FileWithSummary) (h : run_summaries env entries = .ok ys) :
    ys.length = entries.length ∧
    ys.map FileWithSummary.path = entries.map StatusEntry.display_path ∧
    ∀ i (h1 : i < ys.length) (h2 : i < entries.length),
      (ys.get ⟨i, h1⟩).path = (entries.get ⟨i, h2⟩).display_path := by
  induction entries generalizing ys with
  | nil =>
      simp only [run_summaries, List.map_nil, try_join_all] at h
      have := Except.ok.inj h
      subst this
      refine ⟨rfl, rfl, ?_⟩
      intro i h1 _
      exact absurd h1 (Nat.not_lt_zero i)
  | cons e es ih =>
      simp only [run_summaries, List.map_cons, try_join_all] at h
      cases hse : summarize_entry env e with
      | error m => rw [hse] at h; cases h
      | ok a =>
          rw [hse] at h
          cases hrest : try_join_all (es.map (summarize_entry env)) with
          | error m => rw [hrest] at h; cases h
          | ok ws =>
              rw [hrest] at h
              have := Except.ok.inj h
              subst this
              have ihe := ih ws hrest
              have hpath := summarize_entry_ok_path env e a hse
              refine ⟨by simp [ihe.1], by simp [hpath, ihe.2.1], ?_⟩
              intro i h1 h2
              cases i with
              | zero => simpa using hpath
              | succ j =>
                  have := ihe.2.2 j (by simpa using h1) (by simpa using h2)
                  simpa using this

/-- C4: if any single entry's diff resolution or summarization fails, the
joined fan-out returns that branch's error and no result sequence at
all. -/
theorem c4_fanout_propagates_failure (env : RunEnv) (entries : List StatusEntry)
    (h : ∃ e ∈ entries, e.is_binary = false ∧
          ((∃ m, get_diff e (env.diffEnv e) = .error m) ∨
           (∃ d m, get_diff e (env.diffEnv e) = .ok (some d) ∧
                   env.summarizeRes d = .error m))) :
    ∃ m, run_summaries env entries = .error m ∧
         (∃ e ∈ entries, summarize_entry env e = .error m) ∧
         ∀ ys, run_summaries env entries ≠ .ok ys := by
  obtain ⟨e, he, hbin, hcase⟩ := h
  obtain ⟨m, hm⟩ := summarize_entry_error_of env e hbin hcase
  obtain ⟨m2, hm2⟩ := try_join_all_error_of_mem (entries.map (summarize_entry env))
    ⟨summarize_entry env e, List.mem_map_of_mem (summarize_entry env) he, m, hm⟩
  refine ⟨m2, hm2, ?_, ?_⟩
  · have hmem := try_join_all_error_mem (entries.map (summarize_entry env)) m2 hm2
    obtain ⟨e2, he2, heq⟩ := List.mem_map.mp hmem
    exact ⟨e2, he2, heq⟩
  · intro ys hys
    rw [show run_summaries env entries = try_join_all (entries.map (summarize_entry env))
          from rfl, hm2] at hys
    cases hys

/-! ### Concrete environments and entries used by the witnesses -/

def procOkW : ProcOutput :=
  { success := true, stdout := some "diff body".data, stderr := some [] }

def procFailW : ProcOutput :=
  { success := false, stdout := some [], stderr := some "fatal: bad revision".data }

def diffEnvW : DiffEnv :=
  { readFileRes := .ok "hello\n".data
    renameDiff := procOkW
    unmergedDiff := procOkW
    defaultDiff := procOkW }

def runEnvW : RunEnv :=
  { diffEnv := fun _ => diffEnvW, summarizeRes := fun _ => .ok "sum".data }

def runEnvFailW : RunEnv :=
  { diffEnv := fun _ => diffEnvW, summarizeRes := fun _ => .error "boom".data }

def entryUW : StatusEntry :=
  { abs_path := pathJoin ".".data "a b.txt".data
    display_path := "a b.txt".data
    status := .Untracked
    staged := false
    original_path := none
    is_binary := false }

def entryMW : StatusEntry :=
  { abs_path := pathJoin ".".data "b.txt".data
    display_path := "b.txt".data
    status := .Modified
    staged := true
    original_path := none
    is_binary := false }

def resUW : FileWithSummary :=
  { path := "a b.txt".data, status := .Untracked, staged := false
    original_path := none, summary := some "sum".data }

def resMW : FileWithSummary :=
  { path := "b.txt".data, status := .Modified, staged := true
    original_path := none, summary := some "sum".data }

/-- Witness for C3: a concrete two-entry fan-out succeeds and the order
theorem applies to it. -/
theorem c3_fanout_preserves_order_witness :
    [resUW, resMW].length = [entryUW, entryMW].length ∧
    [resUW, resMW].map FileWithSummary.path =
      [entryUW, entryMW].map StatusEntry.display_path :=
  ⟨(c3_fanout_preserves_order runEnvW [entryUW, entryMW] [resUW, resMW] rfl).1,
   (c3_fanout_preserves_order runEnvW [entryUW, entryMW] [resUW, resMW] rfl).2.1⟩

/-- Witness for C4: with a summarizer that rejects the request, the concrete
one-entry fan-out yields an error and no result list. -/
theorem c4_fanout_propagates_failure_witness :
    (∃ m, run_summaries runEnvFailW [entryUW] = .error m) ∧
    run_summaries runEnvFailW [entryUW] ≠ .ok [] := by
  have h := c4_fanout_propagates_failure runEnvFailW [entryUW]
    ⟨entryUW, List.mem_cons_self _ _, rfl,
     Or.inr ⟨"+hello".data, "boom".data, rfl, rfl⟩⟩
  obtain ⟨m, h1, _, h3⟩ := h
  exact ⟨⟨m, h1⟩, h3 []⟩

/-! ### Claims about the status-line parser -/

theorem rustSplitn_fields (fs : List Str) (sep : Char) (p : Str)
    (hfs : ∀ f ∈ fs, sep ∉ f) :
    rustSplitn (fs.length + 1) sep (List.foldr (fun f acc => f ++ sep :: acc) p fs) =
      fs ++ [p] := by
  induction fs with
  | nil => simp [rustSplitn]
  | cons f rest ih =>
      have hf : sep ∉ f := hfs f (List.mem_cons_self f rest)
      have hrest : ∀ g ∈ rest, sep ∉ g := fun g hg => hfs g (List.mem_cons_of_mem f hg)
      simp only [List.foldr_cons, List.length_cons]
      rw [show rest.length + 1 + 1 = rest.length + 2 from rfl,
          rustSplitn_step rest.length sep f _ hf, ih hrest]
      simp

theorem rustSplitn_two (t : Char) (ht : t ≠ ' ') (R : Str) :
    rustSplitn 2 ' ' (t :: ' ' :: R) = [[t], R] := by
  have := rustSplitn_fields [[t]] ' ' R
    (by intro f hf; simp at hf; subst hf; simpa using Ne.symm ht)
  simpa using this

theorem parse_ordinary_of (root : Str) (t : Char) (ht : t = '1' ∨ t = '2')
    (R p g1 g2 g3 g4 g5 g6 : Str)
    (hfields : rustSplitn 8 ' ' R = [['.', 'M'], g1, g2, g3, g4, g5, g6, p]) :
    parse_status_line root (t :: ' ' :: R) =
      .ok (some { display_path := p, abs_path := pathJoin root p,
                  status := .Modified, staged := false,
                  original_path := none, is_binary := false }) := by
  have htne : t ≠ ' ' := by rcases ht with rfl | rfl <;> decide
  have hparts := rustSplitn_two t htne R
  rcases ht with rfl | rfl <;>
    simp [parse_status_line, hparts, hfields, mkOrdinaryEntry, status_code_from_str]

/-- C1 counterexample: on the claimed record
`"1 .M N... 100644 100644 100644 file.txt"` the parser does NOT return a
Modified entry for `file.txt`; it fails with `Missing path`, because the
six skipped placeholder fields consume `file.txt` as the first hash and
leave nothing for the path. -/
theorem c1_ordinary_record_cex :
    parse_status_line ".".data "1 .M N... 100644 100644 100644 file.txt".data =
      ParseOutcome.err "Missing path".data := by rfl

/-- C1 amended: an ordinary record carrying all six placeholder fields
(submodule state, three mode fields, two hashes) before the path, such as
`"1 .M N... 100644 100644 100644 1234abcd 5678abcd file.txt"`, parses to
`kind=Modified, staged=false, path="file.txt"`; the seven-token record of
the original claim instead fails with `Missing path`. -/
theorem c1_ordinary_record_amended :
    parse_status_line ".".data
        "1 .M N... 100644 100644 100644 1234abcd 5678abcd file.txt".data =
      ParseOutcome.ok (some { display_path := "file.txt".data,
                              abs_path := pathJoin ".".data "file.txt".data,
                              status := .Modified, staged := false,
                              original_path := none, is_binary := false }) := by rfl

/-- C2 counterexample: parsing `"R 100 old.txt new.txt"` does not yield
`originalPath="old.txt"`: the similarity score is not skipped, so the result
differs from the claimed entry. -/
theorem c2_rename_record_cex :
    parse_status_line ".".data "R 100 old.txt new.txt".data ≠
      ParseOutcome.ok (some { display_path := "new.txt".data,
                              abs_path := pathJoin ".".data "new.txt".data,
                              status := .Renamed, staged := true,
                              original_path := some "old.txt".data,
                              is_binary := false }) := by decide

/-- C2 amended: for `"R 100 old.txt new.txt"` the parser returns
`kind=Renamed, staged=true, path="new.txt"` but
`originalPath="100 old.txt"`: only the leading `R` token is removed before
the right-split, so the similarity score remains part of the original
path. -/
theorem c2_rename_record_amended :
    parse_status_line ".".data "R 100 old.txt new.txt".data =
      ParseOutcome.ok (some { display_path := "new.txt".data,
                              abs_path := pathJoin ".".data "new.txt".data,
                              status := .Renamed, staged := true,
                              original_path := some "100 old.txt".data,
                              is_binary := false }) := by rfl

/-- C6: a path, embedded spaces and all, survives parsing unchanged when it
is the sole trailing field of a well-formed ordinary (`1`/`2`) record (whose
six placeholder fields contain no spaces), of an untracked (`?`) record, or
of an unmerged (`u`) record — the trailing field is never re-split on
whitespace. -/
theorem c6_paths_with_spaces (root p f1 f2 f3 f4 f5 f6 : Str)
    (h1 : ' ' ∉ f1) (h2 : ' ' ∉ f2) (h3 : ' ' ∉ f3) (h4 : ' ' ∉ f4)
    (h5 : ' ' ∉ f5) (h6 : ' ' ∉ f6) :
    (∀ t, t = '1' ∨ t = '2' →
      parse_status_line root (t :: ' ' :: (['.', 'M'] ++ (' ' :: (f1 ++ (' ' :: (f2 ++ (' ' :: (f3 ++ (' ' :: (f4 ++ (' ' :: (f5 ++ (' ' :: (f6 ++ (' ' :: p))))))))))))))) =
        .ok (some { display_path := p, abs_path := pathJoin root p,
                    status := .Modified, staged := false,
                    original_path := none, is_binary := false })) ∧
    parse_status_line root ('?' :: ' ' :: p) =
      .ok (some { display_path := p, abs_path := pathJoin root p,
                  status := .Untracked, staged := false,
                  original_path := none, is_binary := false }) ∧
    parse_status_line root ('u' :: ' ' :: p) =
      .ok (some { display_path := p, abs_path := pathJoin root p,
                  status := .Unmerged, staged := false,
                  original_path := none, is_binary := false }) := by
  refine ⟨?_, ?_, ?_⟩
  · intro t ht
    refine parse_ordinary_of root t ht _ p f1 f2 f3 f4 f5 f6 ?_
    have := rustSplitn_fields [['.', 'M'], f1, f2, f3, f4, f5, f6] ' ' p
      (by
        intro f hf
        simp only [List.mem_cons, List.not_mem_nil, or_false] at hf
        rcases hf with rfl | rfl | rfl | rfl | rfl | rfl | rfl
        · decide
        · exact h1
        · exact h2
        · exact h3
        · exact h4
        · exact h5
        · exact h6)
    simpa using this
  · have hparts := rustSplitn_two '?' (by decide) p
    simp [parse_status_line, hparts]
  · have hparts := rustSplitn_two 'u' (by decide) p
    simp [parse_status_line, hparts]

/-- Witness for C6, at the concrete path `"file with spaces.txt"` inside an
ordinary record and an untracked record. -/
theorem c6_paths_with_spaces_witness :
    parse_status_line ".".data ('1' :: ' ' :: (['.', 'M'] ++ (' ' :: ("N...".data ++ (' ' :: ("100644".data ++ (' ' :: ("100644".data ++ (' ' :: ("100644".data ++ (' ' :: ("abc1".data ++ (' ' :: ("def2".data ++ (' ' :: "file with spaces.txt".data))))))))))))))) =
      .ok (some { display_path := "file with spaces.txt".data,
                  abs_path := pathJoin ".".data "file with spaces.txt".data,
                  status := .Modified, staged := false,
                  original_path := none, is_binary := false }) ∧
    parse_status_line ".".data ('?' :: ' ' :: "file with spaces.txt".data) =
      .ok (some { display_path := "file with spaces.txt".data,
                  abs_path := pathJoin ".".data "file with spaces.txt".data,
                  status := .Untracked, staged := false,
                  original_path := none, is_binary := false }) :=
  ⟨(c6_paths_with_spaces ".".data "file with spaces.txt".data
      "N...".data "100644".data "100644".data "100644".data "abc1".data "def2".data
      (by decide) (by decide) (by decide) (by decide) (by decide) (by decide)).1
      '1' (Or.inl rfl),
   (c6_paths_with_spaces ".".data "file with spaces.txt".data
      "N...".data "100644".data "100644".data "100644".data "abc1".data "def2".data
      (by decide) (by decide) (by decide) (by decide) (by decide) (by decide)).2.1⟩

/-- C8: a rename/copy record whose remainder has no internal space, such as
`"R 100"`, drives the parser into the `unwrap` of a missing right-split
field: a panic, not a `ParseError` and not a skipped record. -/
theorem c8_rename_without_space_panics :
    parse_status_line ".".data "R 100".data = ParseOutcome.panicked := by rfl

/-! ### Claim about binary classification -/

/-- C5: under the documented behavior of the external `file -bL --mime`
probe (recorded as hypotheses on the probe's output): an empty file
classifies as text whenever the probe either omits the binary-charset
marker or reports the empty-file sentinel; a file of newline bytes and any
valid-UTF-8 file classify as text when the probe does not flag them binary;
any file classifies as binary when the probe reports a binary charset
without the empty sentinel (which `file` does for NUL-carrying content);
and a `Deleted` entry is classified `false` with no filesystem observation
consulted at all. -/
theorem c5_binary_classification :
    (∀ (ex : Bool) (probe : Str),
      (strContains probe "charset=binary".data = false ∨
       strContains probe "inode/x-empty".data = true) →
      is_file_binary { ex := ex, probe := probe, bytes := [] } = false) ∧
    (∀ (ex : Bool) (probe : Str) (bs : List Nat),
      (strContains probe "charset=binary".data = false ∨
       strContains probe "inode/x-empty".data = true) →
      (∀ b ∈ bs, b = 10) →
      is_file_binary { ex := ex, probe := probe, bytes := bs } = false) ∧
    (∀ (probe : Str) (bs : List Nat),
      strContains probe "charset=binary".data = true →
      strContains probe "inode/x-empty".data = false →
      0 ∈ bs →
      is_file_binary { ex := true, probe := probe, bytes := bs } = true) ∧
    (∀ (ex : Bool) (probe : Str) (bs : List Nat),
      (strContains probe "charset=binary".data = false ∨
       strContains probe "inode/x-empty".data = true) →
      validUtf8 bs = true →
      is_file_binary { ex := ex, probe := probe, bytes := bs } = false) ∧
    (∀ f : FileObs, classify_is_binary .Deleted f = false) := by
  refine ⟨?_, ?_, ?_, ?_, ?_⟩
  · intro ex probe hp
    cases ex
    · simp [is_file_binary]
    · rcases hp with hp | hp <;> simp [is_file_binary, hp]
  · intro ex probe bs hp hnl
    have hu : validUtf8 bs = true :=
      validUtf8_of_ascii bs (fun b hb => by rw [hnl b hb]; norm_num)
    cases ex
    · simp [is_file_binary]
    · rcases hp with hp | hp <;> by_cases hbs : bs = [] <;> simp [is_file_binary, hp, hbs, hu]
  · intro probe bs h1 h2 _
    simp [is_file_binary, h1, h2]
  · intro ex probe bs hp hu
    cases ex
    · simp [is_file_binary]
    · rcases hp with hp | hp <;> by_cases hbs : bs = [] <;> simp [is_file_binary, hp, hbs, hu]
  · intro f; rfl

/-- Witness for C5: concrete probe outputs and byte contents for each of the
five cases (empty file, newline-only file, NUL-carrying file, multi-byte
UTF-8 file, deleted entry). -/
theorem c5_binary_classification_witness :
    is_file_binary { ex := true, probe := "inode/x-empty; charset=binary".data,
                     bytes := [] } = false ∧
    is_file_binary { ex := true, probe := "text/plain; charset=us-ascii".data,
                     bytes := [10, 10, 10] } = false ∧
    is_file_binary { ex := true, probe := "application/octet-stream; charset=binary".data,
                     bytes := [83, 0, 0, 69] } = true ∧
    is_file_binary { ex := true, probe := "text/plain; charset=utf-8".data,
                     bytes := [228, 184, 150, 231, 149, 140] } = false ∧
    classify_is_binary .Deleted
      { ex := true, probe := "application/octet-stream; charset=binary".data,
        bytes := [83, 0, 0, 69] } = false :=
  ⟨c5_binary_classification.1 true "inode/x-empty; charset=binary".data
      (Or.inr (by decide)),
   c5_binary_classification.2.1 true "text/plain; charset=us-ascii".data [10, 10, 10]
      (Or.inl (by decide)) (by decide),
   c5_binary_classification.2.2.1 "application/octet-stream; charset=binary".data
      [83, 0, 0, 69] (by decide) (by decide) (by decide),
   c5_binary_classification.2.2.2.1 true "text/plain; charset=utf-8".data
      [228, 184, 150, 231, 149, 140] (Or.inl (by decide)) (by decide),
   c5_binary_classification.2.2.2.2
      { ex := true, probe := "application/octet-stream; charset=binary".data,
        bytes := [83, 0, 0, 69] }⟩

/-! ### Claims about diff retrieval -/

def diffEnvFailW : DiffEnv :=
  { readFileRes := .ok []
    renameDiff := procFailW
    unmergedDiff := procFailW
    defaultDiff := procFailW }

def entryRenW : StatusEntry :=
  { abs_path := pathJoin ".".data "new.txt".data
    display_path := "new.txt".data
    status := .Renamed
    staged := true
    original_path := some "old.txt".data
    is_binary := false }

def entryUnmW : StatusEntry :=
  { abs_path := pathJoin ".".data "conflict.txt".data
    display_path := "conflict.txt".data
    status := .Unmerged
    staged := false
    original_path := none
    is_binary := false }

/-- C7 counterexample: a Renamed entry whose `originalPath` IS present (so
no `None` fallback of the policy table applies) sees its `git diff` exit
non-zero, yet `get_diff` returns `Ok(None)` instead of an error. -/
theorem c7_nonzero_exit_cex :
    get_diff entryRenW diffEnvFailW = .ok none ∧
    entryRenW.original_path = some "old.txt".data ∧
    diffEnvFailW.renameDiff.success = false :=
  ⟨rfl, rfl, rfl⟩

/-- C7 amended: a non-zero exit of the external diff command propagates as a
fatal error only in the default Modified/Added branch (never silently
converted to `None` there); in the Renamed/Copied branch (even with
`originalPath` present) and in the Unmerged branch a non-zero exit is
silently converted to `None`. -/
theorem c7_nonzero_exit_amended :
    (∀ (entry : StatusEntry) (env : DiffEnv),
      entry.is_binary = false →
      (entry.status = .Modified ∨ entry.status = .Added) →
      env.defaultDiff.success = false →
      ∃ m, get_diff entry env = .error m) ∧
    (∀ (entry : StatusEntry) (env : DiffEnv) (o : Str),
      entry.is_binary = false →
      (entry.status = .Renamed ∨ entry.status = .Copied) →
      entry.original_path = some o →
      env.renameDiff.success = false →
      get_diff entry env = .ok none) ∧
    (∀ (entry : StatusEntry) (env : DiffEnv),
      entry.is_binary = false →
      entry.status = .Unmerged →
      env.unmergedDiff.success = false →
      get_diff entry env = .ok none) := by
  refine ⟨?_, ?_, ?_⟩
  · intro entry env hbin hstat hsucc
    rcases hstat with hs | hs <;>
      rcases hse : env.defaultDiff.stderr with _ | e
    · exact ⟨"invalid utf-8 sequence in stderr".data, by simp [get_diff, hbin, hs, hsucc, hse]⟩
    · exact ⟨"Failed to execute git diff: ".data ++ e, by simp [get_diff, hbin, hs, hsucc, hse]⟩
    · exact ⟨"invalid utf-8 sequence in stderr".data, by simp [get_diff, hbin, hs, hsucc, hse]⟩
    · exact ⟨"Failed to execute git diff: ".data ++ e, by simp [get_diff, hbin, hs, hsucc, hse]⟩
  · intro entry env o hbin hstat horig hsucc
    rcases hstat with hs | hs <;> simp [get_diff, hbin, hs, horig, hsucc]
  · intro entry env hbin hstat hsucc
    simp [get_diff, hbin, hstat, hsucc]

/-- Witness for the C7 amendment: a concrete failing diff invocation for a
Modified entry errors, while failing invocations for a Renamed entry (with
original path) and an Unmerged entry yield `Ok(None)`. -/
theorem c7_nonzero_exit_amended_witness :
    (∃ m, get_diff entryMW diffEnvFailW = .error m) ∧
    get_diff entryRenW diffEnvFailW = .ok none ∧
    get_diff entryUnmW diffEnvFailW = .ok none :=
  ⟨c7_nonzero_exit_amended.1 entryMW diffEnvFailW rfl (Or.inl rfl) rfl,
   c7_nonzero_exit_amended.2.1 entryRenW diffEnvFailW "old.txt".data rfl (Or.inl rfl) rfl rfl,
   c7_nonzero_exit_amended.2.2 entryUnmW diffEnvFailW rfl rfl rfl⟩

/-! ### Claim about summary extraction -/

/-- C9: every successful summarization response whose body carries a string
at `content[0].text` yields exactly that string with leading and trailing
whitespace removed — and trimming is not the identity, so the raw field
value is not what is returned. -/
theorem c9_summary_trimmed :
    (∀ (resp : ApiResponse) (j : Json) (s : Str),
      resp.success = true →
      resp.bodyJson = some j →
      jasStr (jgetKey (jgetIdx (jgetKey j "content".data) 0) "text".data) = some s →
      summarize_claude resp = .ok (rustTrim s)) ∧
    rustTrim "  hi\n".data = "hi".data ∧
    "  hi\n".data ≠ "hi".data := by
  refine ⟨?_, by decide, by decide⟩
  intro resp j s hs hj hx
  simp [summarize_claude, hs, hj, hx]

def jsonRespW : Json :=
  .jobj [("content".data,
          .jarr [.jobj [("text".data, .jstr " hi \n".data),
                        ("type".data, .jstr "text".data)]]),
         ("role".data, .jstr "assistant".data)]

def apiRespW : ApiResponse :=
  { success := true, bodyText := [], bodyJson := some jsonRespW }

/-- Witness for C9: a concrete successful response whose text field carries
surrounding whitespace is returned trimmed. -/
theorem c9_summary_trimmed_witness :
    summarize_claude apiRespW = .ok "hi".data := by
  have h := c9_summary_trimmed.1 apiRespW jsonRespW " hi \n".data rfl rfl rfl
  have h2 : rustTrim " hi \n".data = "hi".data := by decide
  rw [h2] at h
  exact h

/-! ### Claim about the untracked-file diff -/

theorem rustLinesPieces_concat_nil (l : List Str) :
    rustLinesPieces (l ++ [[]]) = l.map stripTrailingCR := by
  induction l with
  | nil => rfl
  | cons x xs ih =>
      cases xs with
      | nil => rfl
      | cons y ys =>
          have hstep : rustLinesPieces ((x :: y :: ys) ++ [[]]) =
              stripTrailingCR x :: rustLinesPieces ((y :: ys) ++ [[]]) := rfl
          rw [hstep, ih]; simp

theorem rustLinesPieces_eq_map (l : List Str) (x : Str) (hx : l.getLast? = some x)
    (hxe : x ≠ []) (hxs : stripTrailingCR x = x) :
    rustLinesPieces l = l.map stripTrailingCR := by
  induction l with
  | nil => cases hx
  | cons a as ih =>
      cases as with
      | nil =>
          have ha : a = x := by simpa using hx
          subst ha
          simp [rustLinesPieces, hxe, hxs]
      | cons b bs =>
          have hx' : (b :: bs).getLast? = some x := by
            simpa [List.getLast?_cons_cons] using hx
          have hstep : rustLinesPieces (a :: b :: bs) =
              stripTrailingCR a :: rustLinesPieces (b :: bs) := rfl
          rw [hstep, ih hx']; simp

theorem splitAllAux_getLast_piece (sep : Char) (c : Str) (acc : Str) :
    c ≠ [] → c.getLast? ≠ some sep →
    ∃ L, (splitAllAux sep c acc).getLast? = some L ∧ L.getLast? = c.getLast? := by
  induction c generalizing acc with
  | nil => intro hc _; exact absurd rfl hc
  | cons x xs ih =>
      intro _ hlast
      cases xs with
      | nil =>
          have hxsep : x ≠ sep := by
            intro h; exact hlast (by simp [h])
          refine ⟨(x :: acc).reverse, ?_, ?_⟩
          · simp [splitAllAux, hxsep]
          · simp
      | cons y ys =>
          have hlast' : (y :: ys).getLast? ≠ some sep := by
            simpa [List.getLast?_cons_cons] using hlast
          by_cases hx : x = sep
          · have hstep : splitAllAux sep (x :: y :: ys) acc =
                acc.reverse :: splitAllAux sep (y :: ys) [] := by
              simp [splitAllAux, hx]
            obtain ⟨L, hL1, hL2⟩ := ih [] (by simp) hlast'
            obtain ⟨z, zs, hz⟩ : ∃ z zs, splitAllAux sep (y :: ys) ([] : Str) = z :: zs := by
              cases h : splitAllAux sep (y :: ys) ([] : Str) with
              | nil => exact absurd h (splitAllAux_ne_nil sep (y :: ys) [])
              | cons z zs => exact ⟨z, zs, rfl⟩
            refine ⟨L, ?_, ?_⟩
            · rw [hstep, hz, List.getLast?_cons_cons, ← hz]
              exact hL1
            · rw [hL2, List.getLast?_cons_cons]
          · have hstep : splitAllAux sep (x :: y :: ys) acc =
                splitAllAux sep (y :: ys) (x :: acc) := by
              simp [splitAllAux, hx]
            obtain ⟨L, hL1, hL2⟩ := ih (x :: acc) (by simp) hlast'
            exact ⟨L, by rw [hstep]; exact hL1, by rw [hL2, List.getLast?_cons_cons]⟩

/-- C10: the diff synthesized for a non-binary Untracked entry is `"+"`
followed by the file's lines joined by `"\n+"`; empty content produces the
single character `"+"`, and a single trailing newline in the content does
not add a trailing empty `"+"` line: the lines of `c ++ "\n"` are exactly
the lines of `c` whenever `c` is nonempty and ends in neither a newline
(the appended terminator would then close a genuinely empty final line) nor
a bare carriage return (the appended `'\n'` would then complete a `"\r\n"`
terminator and absorb the `'\r'`). -/
theorem c10_untracked_diff :
    (∀ (entry : StatusEntry) (env : DiffEnv) (content : Str),
      entry.status = .Untracked →
      entry.is_binary = false →
      env.readFileRes = .ok content →
      get_diff entry env =
        .ok (some ('+' :: List.intercalate "\n+".data (rustLines content)))) ∧
    ('+' :: List.intercalate "\n+".data (rustLines []) : Str) = "+".data ∧
    (∀ c : Str, c ≠ [] → c.getLast? ≠ some '\n' → c.getLast? ≠ some '\r' →
      rustLines (c ++ ['\n']) = rustLines c) := by
  refine ⟨?_, by decide, ?_⟩
  · intro entry env content hstat hbin hread
    simp [get_diff, hbin, hstat, hread]
  · intro c hc hn hr
    have hL1 : splitAllOn '\n' (c ++ ['\n']) = splitAllOn '\n' c ++ [[]] :=
      splitAllAux_append_sep '\n' c []
    have e1 : rustLines (c ++ ['\n']) = (splitAllOn '\n' c).map stripTrailingCR := by
      unfold rustLines
      rw [hL1, rustLinesPieces_concat_nil]
    obtain ⟨L, hL, hLlast⟩ := splitAllAux_getLast_piece '\n' c [] hc hn
    have hLne : L ≠ [] := by
      intro h
      subst h
      exact hc (List.getLast?_eq_none_iff.mp hLlast.symm)
    have hstrip : stripTrailingCR L = L := by
      unfold stripTrailingCR
      rw [if_neg]
      rw [hLlast]
      exact hr
    have e2 : rustLines c = (splitAllOn '\n' c).map stripTrailingCR :=
      rustLinesPieces_eq_map (splitAllOn '\n' c) L hL hLne hstrip
    rw [e1, e2]

/-- Witness for C10: the concrete untracked entry with content `"hello\n"`
gets the synthesized one-line diff, and appending one trailing newline to
`"hello"` changes nothing about its lines. -/
theorem c10_untracked_diff_witness :
    get_diff entryUW diffEnvW =
      .ok (some ('+' :: List.intercalate "\n+".data (rustLines "hello\n".data))) ∧
    rustLines ("hello".data ++ ['\n']) = rustLines "hello".data :=
  ⟨c10_untracked_diff.1 entryUW diffEnvW "hello\n".data rfl rfl rfl,
   c10_untracked_diff.2.2 "hello".data (by decide) (by decide) (by decide)⟩
